import Mathlib

/-!
# Verification of the Bigtable table client (`src/packages/bigtable/src/table.js`)

A shallow embedding of the streaming read/write pipeline of the Bigtable
client `Table` prototype, together with theorems settling the frozen claims
about it.

Modelling conventions:

* JavaScript objects created by the caller (mutation entries) are addressed
  by identity: an object store `Store` is a list of `Entry` records and an
  `ObjId` is an index into it.  In-place property assignment is an update of
  the store at that index; "object identity" is equality of `ObjId`s.
* External collaborators that the spec excludes (the mutation encoder
  `Mutation.parse`, the status decorator `GrpcService.decorateStatus_`, the
  key codec `Mutation.convertToBytes`, the range builder `Filter.createRange`,
  the filter compiler `Filter.parse` and the row reconstructor
  `Row.formatChunks_`) are parameters of the embedded functions: every
  theorem holds for an arbitrary implementation of those boundaries.
* A streaming call is embedded by its observable trace: the request object
  handed to `requestStream`, the list of messages the service streams back,
  and a terminal event (`finish` or `error`).  The pipeline functions map
  that trace to the caller-visible outputs (callback invocations or emitted
  events).
* JavaScript truthiness is modelled explicitly where the source branches on
  it: a missing option is `none`, `''` and `0` are falsy, an array (even an
  empty one) is truthy.
-/

namespace Table

/-- Identity of a caller-created JS object (index into the object store). -/
abbrev ObjId := Nat

/-- A logical mutation entry as created by the caller: `{key, method?, data?}`.
The column payload is abstracted to an opaque string blob; the pipeline never
inspects it. -/
structure Entry where
  key : String
  method : Option String
  data : Option String
deriving Repr, DecidableEq, Inhabited

/-- The object store: the caller's entry objects, addressed by identity. -/
abbrev Store := List Entry

/-- Dereference an object id (a missing id yields the default entry, the
counterpart of `undefined`; the claims only use valid ids). -/
def Store.getObj (s : Store) (id : ObjId) : Entry :=
  s.getD id default

/-- One element of the (possibly one-level-nested) `entries` argument:
either an entry object or an inner array of entry objects. -/
inductive EntryNode
  | leaf (id : ObjId)
  | arr (ids : List ObjId)
deriving Repr, DecidableEq

/-- The `entries` argument itself: a single entry object or an array of
nodes (the one level of nesting `lodash.flatten` removes). -/
inductive EntriesArg
  | one (id : ObjId)
  | many (xs : List EntryNode)
deriving Repr, DecidableEq

/-- `arrify`: wrap a non-array argument in a singleton array, pass an array
through unchanged. -/
def arrify : EntriesArg → List EntryNode
  | .one id => [.leaf id]
  | .many xs => xs

/-- The elements an `EntryNode` contributes to the flattened list. -/
def EntryNode.elems : EntryNode → List ObjId
  | .leaf id => [id]
  | .arr ids => ids

/-- `lodash.flatten`: flatten the argument array a single level. -/
def flatten : List EntryNode → List ObjId
  | [] => []
  | n :: ns => n.elems ++ flatten ns

/-- `Mutation.methods.INSERT` (from the excluded mutation module; its value
`'insert'` is the one shown by the doc examples in `table.js`). -/
def insertMethod : String := "insert"

/-- `propAssign('method', v)` applied to one element of the arrified list:
it assigns `obj.method = v` **on the original object** and returns it.  On an
inner array (nested input) the assignment creates a `method` property on the
array object itself, which nothing ever reads again, so the store of entry
objects is unchanged in that case. -/
def propAssignMethod (v : String) (s : Store) (n : EntryNode) : Store :=
  match n with
  | .leaf id => s.set id { s.getObj id with method := some v }
  | .arr _ => s

/-- The store after `insert`'s tagging pass
`arrify(entries).map(propAssign('method', INSERT))` has run (the mapped list
itself is the same list of objects; only the store changes). -/
def insertTagStore (s : Store) (xs : List EntryNode) : Store :=
  xs.foldl (propAssignMethod insertMethod) s

/-- One per-entry status from the `mutateRows` response stream:
`{index, status: {code, message}}`. -/
structure EntryStatus where
  index : Nat
  code : Nat
  message : String
deriving Repr, DecidableEq

/-- A streamed `mutateRows` message carries a list of per-entry statuses
(`data.entries`). -/
abbrev MutateMsg := List EntryStatus

/-- How a stream terminates: normal completion or a stream-level error. -/
inductive Terminal
  | finish
  | error (e : String)
deriving Repr, DecidableEq

/-- The request object handed to `requestStream` for `mutateRows`:
`{tableName, entries: entries.map(Mutation.parse)}` (the `α` is the wire
format produced by the external encoder). -/
structure MutateRequest (α : Type) where
  tableName : String
  entries : List α
deriving Repr, DecidableEq

/-- A decorated per-entry failure: `decorateStatus_(entry.status)` (of
external shape `β`) with the original entry attached by reported index
(`status.entry = entries[entry.index]`; an out-of-range index yields
`undefined`, i.e. `none`). -/
structure Failure (β : Type) where
  status : β
  entry : Option ObjId
deriving Repr, DecidableEq

/-- Payload of an `error` event in emitter mode: either a decorated
per-entry failure or a forwarded stream-level error. -/
inductive EventPayload (β : Type)
  | entryFailure (f : Failure β)
  | streamError (e : String)
deriving Repr, DecidableEq

/-- An event emitted on the returned `EventEmitter`.  `complete` carries no
payload. -/
inductive Event (β : Type)
  | error (p : EventPayload β)
  | complete
deriving Repr, DecidableEq

/-- One invocation of the caller's callback: `callback(error)` on stream
failure, `callback(null, mutationErrors)` on completion. -/
inductive CallbackCall (β : Type)
  | err (e : String)
  | ok (failures : List (Failure β))
deriving Repr, DecidableEq

/-- What `Table.prototype.mutate` returns to its caller: the `EventEmitter`
in emitter mode, `undefined` in callback mode. -/
inductive ReturnValue
  | emitter
  | undefinedVal
deriving Repr, DecidableEq

/-- Everything observable about one `mutate` invocation. -/
structure MutateRun (α β : Type) where
  /-- the options `requestStream` was opened with (its existence in every
  run records that the network call is attempted unconditionally) -/
  request : MutateRequest α
  /-- the caller's object store as `mutate` leaves it -/
  finalStore : Store
  /-- the value returned to the immediate caller -/
  ret : ReturnValue
  /-- events emitted on the `EventEmitter` (emitter mode only), in order -/
  events : List (Event β)
  /-- callback invocations (callback mode only), in order -/
  calls : List (CallbackCall β)
deriving Repr, DecidableEq

/-- The decorated failures the through-stream produces from the streamed
statuses: a status with the success sentinel code `0` is discarded; any other
is decorated and paired with `entries[status.index]` from the flattened
original list `E`. -/
def failuresOf (decorate : EntryStatus → β) (E : List ObjId)
    (msgs : List MutateMsg) : List (Failure β) :=
  msgs.flatten.filterMap fun st =>
    if st.code = 0 then none
    else some ⟨decorate st, E[st.index]?⟩

/-- The run of one `Table.prototype.mutate(entries, callback)` call, embedded
over the trace of one streaming call. -/
def mutateRun (parse : Entry → α) (decorate : EntryStatus → β)
    (tableName : String) (s : Store) (arg : EntriesArg) (hasCallback : Bool)
    (msgs : List MutateMsg) (terminal : Terminal) :
    MutateRun α β :=
  let entries := flatten (arrify arg)
  let req : MutateRequest α :=
    ⟨tableName, entries.map fun id => parse (s.getObj id)⟩
  let failures := failuresOf decorate entries msgs
  if hasCallback then
    { request := req
      finalStore := s
      ret := .undefinedVal
      events := []
      calls :=
        match terminal with
        | .finish => [.ok failures]
        | .error e => [.err e] }
  else
    { request := req
      finalStore := s
      ret := .emitter
      events :=
        failures.map (fun f => .error (.entryFailure f)) ++
          match terminal with
          | .finish => [.complete]
          | .error e => [.error (.streamError e)]
      calls := [] }

/-- `Table.prototype.mutate(entries, callback)`.  The body of the source
function contains no synchronous throw for any entry count, so the result is
always `.ok`; the `Except` layer records that a synchronous throw would be
the only way for the call to fail before the stream is opened. -/
def mutate (parse : Entry → α) (decorate : EntryStatus → β)
    (tableName : String) (s : Store) (arg : EntriesArg) (hasCallback : Bool)
    (msgs : List MutateMsg) (terminal : Terminal) :
    Except String (MutateRun α β) :=
  .ok (mutateRun parse decorate tableName s arg hasCallback msgs terminal)

/-- `Table.prototype.insert(entries, callback)`: arrify, tag every element's
`method` property as insert **in place** via `propAssign`, then delegate to
`mutate` with the tagged (identical) objects. -/
def insert (parse : Entry → α) (decorate : EntryStatus → β)
    (tableName : String) (s : Store) (arg : EntriesArg) (hasCallback : Bool)
    (msgs : List MutateMsg) (terminal : Terminal) :
    Except String (MutateRun α β) :=
  let xs := arrify arg
  let s' := insertTagStore s xs
  mutate parse decorate tableName s' (.many xs) hasCallback msgs terminal

/-- The run of one `insert` call (total accessor mirroring `mutateRun`). -/
def insertRun (parse : Entry → α) (decorate : EntryStatus → β)
    (tableName : String) (s : Store) (arg : EntriesArg) (hasCallback : Bool)
    (msgs : List MutateMsg) (terminal : Terminal) :
    MutateRun α β :=
  mutateRun parse decorate tableName (insertTagStore s (arrify arg))
    (.many (arrify arg)) hasCallback msgs terminal

/-- Tagging an entry as an insert: what `propAssign('method', INSERT)` does
to the fields of one entry object. -/
def setIns (e : Entry) : Entry :=
  { e with method := some insertMethod }

/-- The identities of the entry objects (array elements excluded) among the
elements of the arrified argument. -/
def leafIds : List EntryNode → List ObjId
  | [] => []
  | .leaf id :: ns => id :: leafIds ns
  | .arr _ :: ns => leafIds ns

/-- Positionally tag every object whose identity is listed (auxiliary for
`tagAllSpec`; `i` is the identity of the head of the remaining store). -/
def tagAux (ids : List ObjId) : Nat → List Entry → List Entry
  | _, [] => []
  | i, e :: es => (if i ∈ ids then setIns e else e) :: tagAux ids (i + 1) es

/-- Modelled from the spec: the store in which "every entry's method field
\[is\] set to the insert method constant", entries being the entry objects of
the arrified input (an inner array of a nested input is not an entry object
and is untouched).  Written as a simultaneous positional update, to be
compared with the source's sequential in-place tagging pass
`insertTagStore`. -/
def tagAllSpec (s : Store) (xs : List EntryNode) : Store :=
  tagAux (leafIds xs) 0 s

/-- A user-supplied row range `{start?, end?}` (the `end` field is spelled
`end_`, `end` being reserved in Lean). -/
structure RowRange where
  start : Option String
  end_ : Option String
deriving Repr, DecidableEq

/-- The options object accepted by `getRows`.  A missing property is `none`.
The filter value is kept opaque (`Nat` stands for whatever the caller
supplies; the external `Filter.parse` is a parameter of the builder). -/
structure GetRowsOptions where
  keys : Option (List String)
  start : Option String
  end_ : Option String
  ranges : Option (List RowRange)
  filter : Option Nat
  limit : Option Nat
  decode : Option Bool
deriving Repr, DecidableEq

/-- JavaScript truthiness of an optional string: missing and `''` are falsy. -/
def truthyStr : Option String → Bool
  | none => false
  | some s => s != ""

/-- The `reqOpts.rows` sub-object: `rowKeys` (byte-encoded keys) and
`rowRanges` (encoded range descriptors), each present only when its branch
ran. -/
structure RowsSpec (κ ρ : Type) where
  rowKeys : Option (List κ)
  rowRanges : Option (List ρ)
deriving Repr, DecidableEq

/-- The request object handed to `requestStream` for `readRows`. -/
structure ReadRequest (κ ρ φ : Type) where
  tableName : String
  rows : Option (RowsSpec κ ρ)
  filter : Option φ
  numRowsLimit : Option Nat
deriving Repr, DecidableEq

/-- The range list after the `start`/`end` shorthand step: when `start` or
`end` is truthy, `{start, end}` is pushed onto `options.ranges` (which
defaults to `[]`). -/
def effectiveRanges (o : GetRowsOptions) : List RowRange :=
  let ranges0 := o.ranges.getD []
  if truthyStr o.start || truthyStr o.end_ then ranges0 ++ [⟨o.start, o.end_⟩]
  else ranges0

/-- Construction of the `readRows` request from the options, following the
source line by line.  `enc` is `Mutation.convertToBytes`, `mkRange` is
`Filter.createRange(start, end, 'Key')`, `fparse` is `Filter.parse` — all
external boundaries, taken as parameters.  Note the truthiness tests: an
array-valued `options.keys` is truthy even when empty; `options.limit` set
to `0` is falsy. -/
def buildReadRequest (enc : String → κ) (mkRange : Option String → Option String → ρ)
    (fparse : Nat → φ) (tableName : String) (o : GetRowsOptions) :
    ReadRequest κ ρ φ :=
  let ranges := effectiveRanges o
  let rows : Option (RowsSpec κ ρ) :=
    if o.keys.isSome || ranges.length != 0 then
      some ⟨o.keys.map (List.map enc),
            if ranges.length != 0 then
              some (ranges.map fun r => mkRange r.start r.end_)
            else none⟩
    else none
  let filt := o.filter.map fparse
  let lim :=
    match o.limit with
    | some n => if n != 0 then some n else none
    | none => none
  ⟨tableName, rows, filt, lim⟩

/-- Number of row ranges in a built request (`0` when the `rows` sub-object
or its `rowRanges` field is absent). -/
def rowRangeCount (req : ReadRequest κ ρ φ) : Nat :=
  match req.rows with
  | none => 0
  | some r => (r.rowRanges.getD []).length

/-- A `Row` object handed to the consumer: created by `self.row(rowData.key)`
(bound to this table) with its `data` set from the reconstructor's output.
`δ` is the opaque column-data type. -/
structure Row (δ : Type) where
  tableId : String
  key : String
  data : δ
deriving Repr, DecidableEq

/-- One invocation of the `getRows` callback: `callback(error)` on stream
failure, `callback(null, rows)` on completion. -/
inductive RowsCall (δ : Type)
  | err (e : String)
  | ok (rows : List (Row δ))
deriving Repr, DecidableEq

/-- What `getRows` returns: the live row stream (with the rows it will emit,
in order) when no callback is supplied, `undefined` otherwise. -/
inductive RowsReturn (δ : Type)
  | stream (rows : List (Row δ))
  | undefinedVal
deriving Repr, DecidableEq

/-- Everything observable about one `getRows` invocation. -/
structure GetRowsRun (κ ρ φ δ : Type) where
  request : ReadRequest κ ρ φ
  ret : RowsReturn δ
  calls : List (RowsCall δ)
deriving Repr, DecidableEq

/-- The rows the pipeline emits for the streamed chunk-bearing messages:
each message's `chunks` go through `Row.formatChunks_` (external, parameter
`formatChunks`, also receiving the `decode` option), and each reconstructed
`{key, data}` is wrapped in a table-bound `Row` in order. -/
def emittedRows (formatChunks : χ → Option Bool → List (String × δ))
    (tableName : String) (o : GetRowsOptions) (msgs : List χ) : List (Row δ) :=
  (msgs.map fun c => (formatChunks c o.decode).map fun kd => Row.mk tableName kd.1 kd.2).flatten

/-- `Table.prototype.getRows(options, callback)`, embedded over the trace of
one streaming call. -/
def getRows (enc : String → κ) (mkRange : Option String → Option String → ρ)
    (fparse : Nat → φ) (formatChunks : χ → Option Bool → List (String × δ))
    (tableName : String) (o : GetRowsOptions) (hasCallback : Bool)
    (msgs : List χ) (terminal : Terminal) : GetRowsRun κ ρ φ δ :=
  let req := buildReadRequest enc mkRange fparse tableName o
  let rows := emittedRows formatChunks tableName o msgs
  if hasCallback then
    { request := req
      ret := .undefinedVal
      calls :=
        match terminal with
        | .finish => [.ok rows]
        | .error e => [.err e] }
  else
    { request := req
      ret := .stream rows
      calls := [] }

/-! ### Concrete stand-ins and inputs

Concrete instantiations of the external boundaries and small concrete
inputs, used to evaluate the embedding at explicit points. -/

/-- A concrete mutation encoder (the identity wire format). -/
def idParse : Entry → Entry := fun e => e

/-- A concrete status decorator (keeps the raw status). -/
def idDecorate : EntryStatus → EntryStatus := fun st => st

/-- A concrete key codec (identity byte encoding). -/
def idEnc : String → String := fun s => s

/-- A concrete range builder (keeps the pair). -/
def pairRange : Option String → Option String → RowRange := fun a b => ⟨a, b⟩

/-- A concrete filter compiler. -/
def idFilter : Nat → Nat := fun n => n

/-- Options with a present but empty-string `start` and one explicit range. -/
def cOptsEmptyStart : GetRowsOptions :=
  ⟨none, some "", none, some [⟨some "a", some "c"⟩], none, none, none⟩

/-- Options with a truthy `start`/`end` shorthand and one explicit range. -/
def cOptsShorthand : GetRowsOptions :=
  ⟨none, some "a", some "g", some [⟨some "p", some "q"⟩], none, none, none⟩

/-- Options with both a non-empty key list and a non-empty range list. -/
def cOptsBoth : GetRowsOptions :=
  ⟨some ["a", "b"], none, none, some [⟨some "a", some "c"⟩], none, none, none⟩

/-- Options with an explicit `limit` of `0`. -/
def cOptsLimitZero : GetRowsOptions :=
  ⟨none, none, none, none, none, some 0, none⟩

/-- A caller-side store of two entry objects. -/
def cStore : Store :=
  [⟨"gwashington", none, some "follows"⟩, ⟨"alincoln", some "delete", none⟩]

/-- A store of four entry objects for the failure-correlation input. -/
def cStore4 : Store :=
  [⟨"k0", some "insert", none⟩, ⟨"k1", some "delete", none⟩,
   ⟨"k2", some "insert", some "d2"⟩, ⟨"k3", some "delete", none⟩]

/-- A nested entries argument flattening to the four ids `[0, 1, 2, 3]`. -/
def cArgNested : EntriesArg :=
  .many [.leaf 0, .arr [1, 2], .leaf 3]

/-- A status stream reporting index 2 failed (code 5) and index 0 ok. -/
def cMsgsMixed : List MutateMsg :=
  [[⟨2, 5, "boom"⟩], [⟨0, 0, "ok"⟩]]

/-- A status stream in which every reported code is the success sentinel. -/
def cMsgsAllZero : List MutateMsg :=
  [[⟨0, 0, "ok"⟩, ⟨1, 0, "ok"⟩]]

/-! ### Helper lemmas -/

/-- The one-level flatten is the concatenation, in argument order, of the
elements each node contributes. -/
theorem flatten_eq_flatten_map (xs : List EntryNode) :
    flatten xs = (xs.map EntryNode.elems).flatten := by
  induction xs with
  | nil => rfl
  | cons n ns ih => simp [flatten, ih]

/-- Discarding the success sentinel and decorating the rest is filtering the
non-zero statuses and mapping the decoration over them, in order. -/
theorem filterMapGuard_eq (decorate : EntryStatus → β) (E : List ObjId)
    (l : List EntryStatus) :
    (l.filterMap fun st =>
        if st.code = 0 then none
        else some (⟨decorate st, E[st.index]?⟩ : Failure β)) =
      (l.filter fun st => st.code != 0).map
        fun st => ⟨decorate st, E[st.index]?⟩ := by
  induction l with
  | nil => rfl
  | cons st l ih =>
      by_cases h : st.code = 0 <;> simp [h, ih]

/-- `failuresOf` in filter-then-map form. -/
theorem failuresOf_eq_filter_map (decorate : EntryStatus → β) (E : List ObjId)
    (msgs : List MutateMsg) :
    failuresOf decorate E msgs =
      (msgs.flatten.filter fun st => st.code != 0).map
        fun st => ⟨decorate st, E[st.index]?⟩ := by
  unfold failuresOf
  exact filterMapGuard_eq decorate E msgs.flatten

/-- If every streamed status carries the success sentinel, no failure object
is produced. -/
theorem failuresOf_eq_nil (decorate : EntryStatus → β) (E : List ObjId)
    (msgs : List MutateMsg) (h : ∀ st ∈ msgs.flatten, st.code = 0) :
    failuresOf decorate E msgs = [] := by
  unfold failuresOf
  exact List.filterMap_eq_nil_iff.mpr fun st hst => by rw [if_pos (h st hst)]

/-- Dereferencing through `getElem?`: a present index yields the stored
entry. -/
theorem getObj_of_getElem? (s : Store) (j : Nat) (e : Entry)
    (h : s[j]? = some e) : s.getObj j = e := by
  simp [Store.getObj, List.getD_eq_getElem?_getD, h]

/-- Pointwise description of the sequential in-place tagging pass of
`insert`: object `j` ends with its method tagged exactly when it is one of
the entry objects of the arrified argument, and is untouched otherwise. -/
theorem insertTagStore_getElem? (xs : List EntryNode) (s : Store) (j : Nat) :
    (insertTagStore s xs)[j]? =
      s[j]?.map fun e => if j ∈ leafIds xs then setIns e else e := by
  induction xs generalizing s with
  | nil =>
      simp [insertTagStore, leafIds]
  | cons n ns ih =>
      cases n with
      | arr ids =>
          have h1 : insertTagStore s (EntryNode.arr ids :: ns) =
              insertTagStore s ns := rfl
          rw [h1, ih s, leafIds]
      | leaf a =>
          have h1 : insertTagStore s (EntryNode.leaf a :: ns) =
              insertTagStore (s.set a (setIns (s.getObj a))) ns := rfl
          rw [h1, ih]
          by_cases hja : j = a
          · subst hja
            rw [List.getElem?_set_self']
            cases hs : s[j]? with
            | none => simp
            | some e =>
                have hobj : s.getObj j = e := getObj_of_getElem? s j e hs
                have hmem : j ∈ leafIds (EntryNode.leaf j :: ns) := by
                  simp [leafIds]
                by_cases hm : j ∈ leafIds ns <;>
                  simp [hobj, hmem, hm, setIns]
          · rw [List.getElem?_set_ne (Ne.symm hja)]
            cases s[j]? <;> simp [leafIds, hja]

/-- Pointwise description of the simultaneous spec-side tagging. -/
theorem tagAux_getElem? (ids : List ObjId) (l : List Entry) (i j : Nat) :
    (tagAux ids i l)[j]? =
      l[j]?.map fun e => if (i + j) ∈ ids then setIns e else e := by
  induction l generalizing i j with
  | nil => simp [tagAux]
  | cons e es ih =>
      cases j with
      | zero => simp [tagAux]
      | succ j' =>
          have harith : i + (j' + 1) = (i + 1) + j' := by omega
          simp only [tagAux, List.getElem?_cons_succ]
          rw [ih (i + 1) j', harith]

/-- The source's sequential in-place tagging pass computes the spec-side
simultaneous tagging. -/
theorem insertTagStore_eq_tagAllSpec (s : Store) (xs : List EntryNode) :
    insertTagStore s xs = tagAllSpec s xs := by
  apply List.ext_getElem?
  intro j
  rw [insertTagStore_getElem?, tagAllSpec, tagAux_getElem?]
  simp

/-! ### Claims -/

/-- C1 counterexample: `mutate` called with a zero-length entries array does
**not** fail synchronously at construction time: the call succeeds and the
streaming request is opened (with an empty encoded entry list), so nothing
is reported to the immediate caller before the network call. -/
theorem C1_counterexample :
    mutate idParse idDecorate "t" [] (.many []) true [] .finish =
      .ok { request := ⟨"t", []⟩
            finalStore := []
            ret := .undefinedVal
            events := []
            calls := [.ok []] } := rfl

/-- C1 (amended): `mutate` performs no construction-time validation of the
flattened entry count.  For every input — empty, oversized or otherwise —
the call never fails synchronously, and the streaming request is opened with
exactly one encoded entry per flattened input entry (no truncation), against
this table; failures surface only through the stream. -/
theorem C1_no_construction_validation (parse : Entry → α)
    (decorate : EntryStatus → β) (t : String) (s : Store) (arg : EntriesArg)
    (cb : Bool) (msgs : List MutateMsg) (term : Terminal) :
    mutate parse decorate t s arg cb msgs term =
      .ok (mutateRun parse decorate t s arg cb msgs term) ∧
    (mutateRun parse decorate t s arg cb msgs term).request.entries.length =
      (flatten (arrify arg)).length ∧
    (mutateRun parse decorate t s arg cb msgs term).request.tableName = t := by
  refine ⟨rfl, ?_, ?_⟩
  · cases cb <;> simp [mutateRun]
  · cases cb <;> simp [mutateRun]

/-- C2 counterexample: `insert` mutates the caller's original entry object:
after the call, the `method` field of the very object the caller supplied —
originally absent — is the insert constant. -/
theorem C2_counterexample :
    (cStore.getObj 0).method = none ∧
    ((insertRun idParse idDecorate "t" cStore (.one 0) true [] .finish).finalStore.getObj 0).method =
      some "insert" :=
  ⟨rfl, rfl⟩

/-- C2 (amended): `mutate` itself never modifies the caller's entry objects;
`insert`'s method tagging, however, operates **in place** on the caller's
original objects, not on copies: it changes at most the `method` field
(`key` and `data` of every object are preserved), objects that are not entry
elements of the arrified argument are untouched entirely, and wire encoding
then reads these tagged originals. -/
theorem C2_in_place_tagging (parse : Entry → α) (decorate : EntryStatus → β)
    (t : String) (s : Store) (arg : EntriesArg) (cb : Bool)
    (msgs : List MutateMsg) (term : Terminal) :
    (mutateRun parse decorate t s arg cb msgs term).finalStore = s ∧
    (∀ j : Nat,
      ((insertTagStore s (arrify arg)).getObj j).key = (s.getObj j).key ∧
      ((insertTagStore s (arrify arg)).getObj j).data = (s.getObj j).data) ∧
    (∀ j : Nat, j ∉ leafIds (arrify arg) →
      (insertTagStore s (arrify arg))[j]? = s[j]?) ∧
    (insertRun parse decorate t s arg cb msgs term).request.entries =
      (flatten (arrify arg)).map
        (fun id => parse ((insertTagStore s (arrify arg)).getObj id)) := by
  refine ⟨?_, ?_, ?_, ?_⟩
  · cases cb <;> rfl
  · intro j
    have hpt := insertTagStore_getElem? (arrify arg) s j
    cases hs : s[j]? with
    | none =>
        have hnone : (insertTagStore s (arrify arg))[j]? = none := by
          rw [hpt, hs]; rfl
        simp [Store.getObj, List.getD_eq_getElem?_getD, hs, hnone]
    | some e =>
        have hsome : (insertTagStore s (arrify arg))[j]? =
            some (if j ∈ leafIds (arrify arg) then setIns e else e) := by
          rw [hpt, hs]; rfl
        by_cases hm : j ∈ leafIds (arrify arg) <;>
          simp [Store.getObj, List.getD_eq_getElem?_getD, hs, hsome, hm, setIns]
  · intro j hj
    rw [insertTagStore_getElem? (arrify arg) s j]
    cases s[j]? <;> simp [hj]
  · cases cb <;> rfl

/-- C3: flattening preserves the relative order of entries (the flattened
list is the in-order concatenation of the nodes' elements); the decorated
failures are precisely the non-zero statuses, in stream order, each carrying
the entry at its reported index of the flattened list; and for every
in-range index that lookup yields exactly the originally-passed entry (by
object identity). -/
theorem C3_failure_correlation (decorate : EntryStatus → β) (arg : EntriesArg)
    (msgs : List MutateMsg)
    (h1 : 1 ≤ (flatten (arrify arg)).length)
    (h2 : (flatten (arrify arg)).length ≤ 100000) :
    flatten (arrify arg) = ((arrify arg).map EntryNode.elems).flatten ∧
    failuresOf decorate (flatten (arrify arg)) msgs =
      (msgs.flatten.filter fun st => st.code != 0).map
        (fun st => ⟨decorate st, (flatten (arrify arg))[st.index]?⟩) ∧
    ∀ i : Nat, ∀ hi : i < (flatten (arrify arg)).length,
      (flatten (arrify arg))[i]? =
        some ((flatten (arrify arg)).get ⟨i, hi⟩) := by
  refine ⟨flatten_eq_flatten_map (arrify arg),
    failuresOf_eq_filter_map decorate (flatten (arrify arg)) msgs, ?_⟩
  intro i hi
  simp [List.getElem?_eq_getElem hi, List.get_eq_getElem]

/-- Witness for C3 at a nested argument and a mixed status stream. -/
theorem C3_witness :
    1 ≤ (flatten (arrify cArgNested)).length ∧
    (flatten (arrify cArgNested)).length ≤ 100000 ∧
    failuresOf idDecorate (flatten (arrify cArgNested)) cMsgsMixed =
      (cMsgsMixed.flatten.filter fun st => st.code != 0).map
        (fun st => ⟨idDecorate st, (flatten (arrify cArgNested))[st.index]?⟩) :=
  ⟨by decide, by decide,
    (C3_failure_correlation idDecorate cArgNested cMsgsMixed (by decide)
      (by decide)).2.1⟩

/-- C4: a status with the success sentinel code 0 produces no result object;
hence when every streamed status code is 0 and the stream finishes, the
callback is invoked with `(null, [])`, and in emitter mode a single
`complete` event and zero `error` events are emitted. -/
theorem C4_success_sentinel (parse : Entry → α) (decorate : EntryStatus → β)
    (t : String) (s : Store) (arg : EntriesArg) (msgs : List MutateMsg)
    (h : ∀ st ∈ msgs.flatten, st.code = 0) :
    failuresOf decorate (flatten (arrify arg)) msgs = [] ∧
    (mutateRun parse decorate t s arg true msgs .finish).calls = [.ok []] ∧
    (mutateRun parse decorate t s arg false msgs .finish).events = [.complete] ∧
    ((mutateRun parse decorate t s arg false msgs .finish).events.countP
        fun ev => match ev with | .error _ => true | .complete => false) = 0 := by
  have hf := failuresOf_eq_nil decorate (flatten (arrify arg)) msgs h
  refine ⟨hf, ?_, ?_, ?_⟩
  · simp [mutateRun, hf]
  · simp [mutateRun, hf]
  · simp [mutateRun, hf, List.countP_cons, List.countP_nil]

/-- Witness for C4 at an all-success status stream. -/
theorem C4_witness :
    (cMsgsAllZero.flatten.all fun st => st.code == 0) = true ∧
    (mutateRun idParse idDecorate "t" cStore (.many [.leaf 0, .leaf 1]) true
        cMsgsAllZero .finish).calls = [.ok []] :=
  ⟨by decide,
    (C4_success_sentinel idParse idDecorate "t" cStore
      (.many [.leaf 0, .leaf 1]) cMsgsAllZero (by decide)).2.1⟩

/-- C5: in emitter mode `mutate` returns the event-emitting handle; every
decorated failure is emitted as its own `error` event, in order, before the
terminal event (never buffered into a callback list — the callback channel
stays empty); a stream-level error is forwarded as an `error` event; and
normal completion emits exactly one `complete` event, which carries no
payload. -/
theorem C5_emitter_mode (parse : Entry → α) (decorate : EntryStatus → β)
    (t : String) (s : Store) (arg : EntriesArg) (msgs : List MutateMsg)
    (term : Terminal) :
    (mutateRun parse decorate t s arg false msgs term).ret = .emitter ∧
    (mutateRun parse decorate t s arg false msgs term).events =
      ((failuresOf decorate (flatten (arrify arg)) msgs).map
          fun f => .error (.entryFailure f)) ++
        (match term with
         | .finish => [.complete]
         | .error e => [.error (.streamError e)]) ∧
    (mutateRun parse decorate t s arg false msgs term).calls = [] ∧
    ((mutateRun parse decorate t s arg false msgs term).events.countP
        fun ev => match ev with | .complete => true | .error _ => false) =
      (if term = .finish then 1 else 0) := by
  refine ⟨rfl, rfl, rfl, ?_⟩
  cases term <;>
    simp [mutateRun, List.countP_append, List.countP_map, List.countP_cons,
      List.countP_nil, Function.comp]

/-- C6 counterexample: with `start` present but equal to the empty string
(and one explicit range), the shorthand range is **not** appended — the
request's row-range list has length 1, not `|ranges| + 1 = 2`. -/
theorem C6_counterexample :
    cOptsEmptyStart.start.isSome = true ∧
    (cOptsEmptyStart.ranges.getD []).length + 1 = 2 ∧
    rowRangeCount
      (buildReadRequest idEnc pairRange idFilter "t" cOptsEmptyStart) = 1 :=
  ⟨rfl, rfl, rfl⟩

/-- C6 (amended): for every options object in which `start` or `end` is
present **and truthy** (a non-empty string; a present empty string counts as
absent), `{start, end}` is appended to the ranges list rather than replacing
it: the row-range list is the explicit ranges in order followed by the
shorthand range, of length `|options.ranges| + 1`. -/
theorem C6_shorthand_appends (enc : String → κ)
    (mkRange : Option String → Option String → ρ) (fparse : Nat → φ)
    (t : String) (o : GetRowsOptions)
    (h : (truthyStr o.start || truthyStr o.end_) = true) :
    (buildReadRequest enc mkRange fparse t o).rows =
      some ⟨o.keys.map (List.map enc),
            some ((o.ranges.getD []).map (fun rg => mkRange rg.start rg.end_) ++
                  [mkRange o.start o.end_])⟩ ∧
    rowRangeCount (buildReadRequest enc mkRange fparse t o) =
      (o.ranges.getD []).length + 1 := by
  have hr : effectiveRanges o = o.ranges.getD [] ++ [⟨o.start, o.end_⟩] := by
    simp [effectiveRanges, h]
  have hlen : (effectiveRanges o).length ≠ 0 := by
    rw [hr]; simp
  constructor
  · simp [buildReadRequest, hr, hlen]
  · simp [rowRangeCount, buildReadRequest, hr, hlen]

/-- Witness for C6 (amended) at a truthy shorthand plus one explicit range. -/
theorem C6_witness :
    (truthyStr cOptsShorthand.start || truthyStr cOptsShorthand.end_) = true ∧
    rowRangeCount
        (buildReadRequest idEnc pairRange idFilter "t" cOptsShorthand) =
      (cOptsShorthand.ranges.getD []).length + 1 :=
  ⟨by decide,
    (C6_shorthand_appends idEnc pairRange idFilter "t" cOptsShorthand
      (by decide)).2⟩

/-- C7: key list and range list are additive: when the options carry both a
non-empty `keys` list and a non-empty effective range list, the request
contains both the encoded key list and the encoded range list — neither
suppresses the other. -/
theorem C7_keys_and_ranges_additive (enc : String → κ)
    (mkRange : Option String → Option String → ρ) (fparse : Nat → φ)
    (t : String) (o : GetRowsOptions) (ks : List String)
    (hk : o.keys = some ks) (hks : ks ≠ []) (hr : effectiveRanges o ≠ []) :
    (buildReadRequest enc mkRange fparse t o).rows =
      some ⟨some (ks.map enc),
            some ((effectiveRanges o).map fun rg => mkRange rg.start rg.end_)⟩ ∧
    ks.map enc ≠ [] ∧
    (effectiveRanges o).map (fun rg => mkRange rg.start rg.end_) ≠ [] := by
  have hlen : (effectiveRanges o).length ≠ 0 := by
    simpa [List.length_eq_zero] using hr
  refine ⟨?_, ?_, ?_⟩
  · simp [buildReadRequest, hk, hlen]
  · simpa [List.map_eq_nil_iff] using hks
  · simpa [List.map_eq_nil_iff] using hr

/-- Witness for C7 at options carrying both forms. -/
theorem C7_witness :
    cOptsBoth.keys = some ["a", "b"] ∧ (["a", "b"] : List String) ≠ [] ∧
    effectiveRanges cOptsBoth ≠ [] ∧
    (buildReadRequest idEnc pairRange idFilter "t" cOptsBoth).rows =
      some ⟨some (["a", "b"].map idEnc),
            some ((effectiveRanges cOptsBoth).map
              fun rg => pairRange rg.start rg.end_)⟩ :=
  ⟨rfl, by decide, by decide,
    (C7_keys_and_ranges_additive idEnc pairRange idFilter "t" cOptsBoth
      ["a", "b"] rfl (by decide) (by decide)).1⟩

/-- C8: with a callback, `getRows` buffers all emitted rows and invokes the
callback exactly once — `(null, rows)` with every emitted row on normal
completion, or the error alone on stream failure (no partial buffer is ever
delivered); without a callback, the live row stream itself is returned and
the callback channel is unused. -/
theorem C8_callback_buffering (enc : String → κ)
    (mkRange : Option String → Option String → ρ) (fparse : Nat → φ)
    (formatChunks : χ → Option Bool → List (String × δ)) (t : String)
    (o : GetRowsOptions) (msgs : List χ) (term : Terminal) :
    (getRows enc mkRange fparse formatChunks t o true msgs term).calls =
      (match term with
       | .finish => [.ok (emittedRows formatChunks t o msgs)]
       | .error e => [.err e]) ∧
    (getRows enc mkRange fparse formatChunks t o true msgs term).calls.length = 1 ∧
    (getRows enc mkRange fparse formatChunks t o false msgs term).ret =
      .stream (emittedRows formatChunks t o msgs) ∧
    (getRows enc mkRange fparse formatChunks t o false msgs term).calls = [] := by
  refine ⟨rfl, ?_, rfl, rfl⟩
  cases term <;> rfl

/-- C9: `insert(entries, callback)` is `mutate(entries', callback)` where
`entries'` is the arrified input with every entry object's `method` field
set to the insert constant (the spec-side simultaneous tagging
`tagAllSpec`). -/
theorem C9_insert_is_pretagged_mutate (parse : Entry → α)
    (decorate : EntryStatus → β) (t : String) (s : Store) (arg : EntriesArg)
    (cb : Bool) (msgs : List MutateMsg) (term : Terminal) :
    insert parse decorate t s arg cb msgs term =
      mutate parse decorate t (tagAllSpec s (arrify arg)) (.many (arrify arg))
        cb msgs term := by
  have h := insertTagStore_eq_tagAllSpec s (arrify arg)
  show mutate parse decorate t (insertTagStore s (arrify arg))
      (.many (arrify arg)) cb msgs term = _
  rw [h]

/-- C10: a `getRows` options object with `limit` set to `0` yields a request
with no `numRowsLimit` field at all — the limit is tested for truthiness, so
an explicit `0` behaves exactly like an absent limit (unlimited). -/
theorem C10_limit_zero_is_untruthy (enc : String → κ)
    (mkRange : Option String → Option String → ρ) (fparse : Nat → φ)
    (t : String) (o : GetRowsOptions) (h : o.limit = some 0) :
    (buildReadRequest enc mkRange fparse t o).numRowsLimit = none := by
  simp [buildReadRequest, h]

/-- Witness for C10 at an explicit `limit: 0`. -/
theorem C10_witness :
    cOptsLimitZero.limit = some 0 ∧
      (buildReadRequest idEnc pairRange idFilter "t" cOptsLimitZero).numRowsLimit =
        none :=
  ⟨rfl,
    C10_limit_zero_is_untruthy idEnc pairRange idFilter "t" cOptsLimitZero rfl⟩

end Table
